import Mathlib

/-!
Verification of the media-scanning orchestration core (`src/reporting.js`):
a shallow embedding of the result cache, the request coalescer, the scoped
temporary workspace and the fetch/decrypt/scan pipeline, together with
theorems about the cache keys, error paths and coalescing behaviour.

External collaborators (the HTTP client, the decryption routine, the
scanner executable, `mkdtemp`/`rimraf`) are modelled as oracles supplied
through an environment record; the JS event loop is sequentialised, with
the coalescer additionally given a dedicated event-trace model.
-/

namespace MCS

/-! ## Data model -/

/-- The JWK decryption key carried in an encrypted-file descriptor
(`eventContentFile.key`).  It is an object in JS, hence always truthy when
present; its contents are opaque to `reporting.js` and modelled as a single
string field. -/
structure Jwk where
  k : String
deriving DecidableEq

/-- `eventContentFile`: the encrypted-file descriptor.  `reporting.js` reads
only its `url` field and the truthiness of its `key` field; the whole value
is fed to `JSON.stringify` when deriving the cache key. -/
structure EventContentFile where
  url : String
  key : Option Jwk
deriving DecidableEq

/-- The `opts` configuration bag.  `baseUrl`, `tempDirectory` and `script`
may each be absent (`undefined` in JS), which `_generateReport` checks. -/
structure Opts where
  baseUrl : Option String
  tempDirectory : Option String
  script : Option String
deriving DecidableEq

/-- JS string interpolation of a possibly-`undefined` value: `undefined`
interpolates as the string `"undefined"`. -/
def jsStr : Option String → String
  | some s => s
  | none => "undefined"

/-! ## The cache key (`generateResultHash`)

`generateResultHash(httpUrl, eventContentFile)` is
`base64sha256(JSON.stringify({ httpUrl, eventContentFile }))`.
`JSON.stringify` omits `undefined` fields, so an absent descriptor yields
`{"httpUrl":...}` while a present one yields
`{"httpUrl":...,"eventContentFile":{...}}`.  We model the serialisation
concretely over `List Char` (escaping `"` and `\` as `JSON.stringify`
does for the characters relevant here) and model the external SHA-256 +
base64 primitive as an injective encoding — collision-freeness is its
cryptographic contract — taken to be the identity on the serialised
input. -/

/-- JSON escaping of one character: `"` and `\` get a backslash, other
characters are unchanged. -/
def escChar (c : Char) : List Char :=
  if c = '"' ∨ c = '\\' then ['\\', c] else [c]

/-- JSON escaping of a string body. -/
def escapeJson : List Char → List Char
  | [] => []
  | c :: cs => escChar c ++ escapeJson cs

/-- A JSON string literal: quote, escaped body, quote. -/
def quoteJson (s : String) : List Char :=
  '"' :: (escapeJson s.data ++ ['"'])

/-- `JSON.stringify` of the `key` JWK object. -/
def stringifyJwk (j : Jwk) : List Char :=
  ['{', '"', 'k', '"', ':'] ++ quoteJson j.k ++ ['}']

/-- `JSON.stringify` of an encrypted-file descriptor: the `url` field,
then the `key` field when present. -/
def stringifyFile (f : EventContentFile) : List Char :=
  ['{', '"', 'u', 'r', 'l', '"', ':'] ++ quoteJson f.url ++
    (match f.key with
      | none => []
      | some j => [',', '"', 'k', 'e', 'y', '"', ':'] ++ stringifyJwk j) ++
    ['}']

/-- `JSON.stringify({ httpUrl, eventContentFile })`: the
`eventContentFile` field is omitted when the descriptor is absent. -/
def stringifyInput (httpUrl : String) (eventContentFile : Option EventContentFile) :
    List Char :=
  ['{', '"', 'h', 't', 't', 'p', 'U', 'r', 'l', '"', ':'] ++ quoteJson httpUrl ++
    (match eventContentFile with
      | none => []
      | some f =>
        [',', '"', 'e', 'v', 'e', 'n', 't', 'C', 'o', 'n', 't', 'e', 'n', 't',
         'F', 'i', 'l', 'e', '"', ':'] ++ stringifyFile f) ++
    ['}']

/-- The external `crypto` SHA-256 + base64 digest.  An external
cryptographic primitive whose contract is collision-freeness on the inputs
in play; modelled as an injective encoding (the identity). -/
def base64sha256 (s : List Char) : List Char := s

/-- `generateResultHash(httpUrl, eventContentFile)` from `reporting.js`. -/
def generateResultHash (httpUrl : String)
    (eventContentFile : Option EventContentFile) : List Char :=
  base64sha256 (stringifyInput httpUrl eventContentFile)

/-! ## URL derivation -/

/-- Template literal from `generateHttpUrl`:
`${baseUrl}/_matrix/media/v1/download/${domain}/${mediaId}`. -/
def generateHttpUrl (baseUrl domain mediaId : String) : String :=
  baseUrl ++ "/_matrix/media/v1/download/" ++ domain ++ "/" ++ mediaId

/-- `String.prototype.split` with a single-character separator, on the
character list (structurally recursive, so concrete inputs evaluate). -/
def splitOnChar (sep : Char) : List Char → List (List Char)
  | [] => [[]]
  | c :: cs =>
    match splitOnChar sep cs with
    | [] => if c = sep then [[], [c]] else [[c]]
    | g :: gs => if c = sep then [] :: g :: gs else (c :: g) :: gs

/-- `eventContentFile.url.split('/').slice(-2)` destructured into
`[domain, mediaId]`.  When the split yields a single segment, `mediaId` is
`undefined` and interpolates as `"undefined"`. -/
def splitSlice2 (url : String) : String × String :=
  match (splitOnChar '/' url.data).reverse with
  | [] => ("undefined", "undefined")
  | [a] => (String.mk a, "undefined")
  | b :: a :: _ => (String.mk a, String.mk b)

/-- The `if (eventContentFile) { [domain, mediaId] = ... }` override that
`getReport`, `getInputHash` and `_generateReport` each perform. -/
def effRef (domain mediaId : String) : Option EventContentFile → String × String
  | some f => splitSlice2 f.url
  | none => (domain, mediaId)

/-- `path.join` on POSIX. -/
def pathJoin (a b : String) : String := a ++ "/" ++ b

/-! ## Results, cache, environment -/

/-- The object returned by the external `executeCommand` facility:
`{clean, info, exitCode}`. -/
structure ExecResult where
  clean : Bool
  info : String
  exitCode : Nat
deriving DecidableEq

/-- A scan result object.  `executeCommand` produces it with `filePath` and
`headers` absent; `_generateReport` later assigns both fields on the very
object stored in the cache (the cached entry and the returned result are
one JS object). -/
structure ScanRes where
  clean : Bool
  info : String
  exitCode : Nat
  filePath : Option String
  headers : Option (List (String × String))
deriving DecidableEq

/-- Cache keys are the digests produced by `generateResultHash`. -/
abbrev Key := List Char

/-- A JS object used as a map, modelled as an association list with unique
keys maintained by `aset`. -/
abbrev Cache := List (Key × ScanRes)

def alookup {κ β : Type} [DecidableEq κ] : List (κ × β) → κ → Option β
  | [], _ => none
  | (k', v) :: rest, k => if k' = k then some v else alookup rest k

def aset {κ β : Type} [DecidableEq κ] : List (κ × β) → κ → β → List (κ × β)
  | [], k, v => [(k, v)]
  | (k', v') :: rest, k, v =>
    if k' = k then (k, v) :: rest else (k', v') :: aset rest k v

def aremove {κ β : Type} [DecidableEq κ] : List (κ × β) → κ → List (κ × β)
  | [], _ => []
  | (k', v') :: rest, k =>
    if k' = k then aremove rest k else (k', v') :: aremove rest k

/-- `clearReportCache()`: resets the module-level cache to the empty
object. -/
def clearReportCache (_cache : Cache) : Cache := []

/-- A transport-level error from the HTTP client, as observed by the
`catch` in `_generateReport`: it may or may not carry `statusCode`. -/
structure FetchErr where
  statusCode : Option Nat
  message : String
deriving DecidableEq

/-- JS truthiness of `err.statusCode` (`undefined` and `0` are falsy). -/
def jsTruthy : Option Nat → Bool
  | some n => n != 0
  | none => false

/-- Everything that can be thrown by the modelled code: `ClientError`
(Modelled from the spec: `client-error.js` is not under `src/`; the spec
describes it as "a typed client error carrying an HTTP-style status code
and message"), a plain `new Error(...)`, a rethrown transport error, and a
`rimraf` callback error surfaced by `withTempDir`'s `finally`. -/
inductive JsError where
  | clientError (status : Nat) (message : String)
  | jsError (message : String)
  | fetchError (e : FetchErr)
  | rimrafError (dir : String)
deriving DecidableEq

/-- Observable I/O effects of a run, in order. -/
inductive Effect where
  | mkdtemp (pat dir : String)
  | rimraf (dir : String)
  | fetch (url dest : String)
  | decrypt (src dst : String)
  | scan (cmd : String)
  | sendFile (filePath : Option String) (headers : List (String × Option String))
deriving DecidableEq

/-- The external collaborators, as oracles.  `fetch` covers the streaming
HTTP GET (headers on success, a `FetchErr` on failure); `decrypt` is the
external `decryptFile` routine (`decrypt-file.js`, not under `src/`;
Modelled from the spec: "a decryption routine
`decrypt(inputPath, outputPath, descriptor) -> void | throws`", here a
success/throw oracle); `executeCommand` is the external scanner facility
(`execute-cmd.js`, not under `src/`; Modelled from the spec: "a command
execution facility `execute(commandString) -> {exitCode, ...}`");
`mkdtemp` names the created directory for a given template (modelled as
succeeding — external fs); `rimraf` says whether removal succeeds. -/
structure Env where
  fetch : String → Except FetchErr (List (String × String))
  decrypt : String → String → EventContentFile → Bool
  executeCommand : String → ExecResult
  mkdtemp : String → String
  rimraf : String → Bool

/-- A sequentialised async computation: given the environment and the
module-level cache it produces an outcome (value or thrown error), the
cache afterwards, and the ordered I/O effects it performed. -/
abbrev M (α : Type) := Env → Cache → Except JsError α × Cache × List Effect

/-! ## getReport -/

/-- Result shape of `getReport`: `{scanned: false}` or
`{clean, scanned: true, info}` (absent fields are `none`). -/
structure GetReportResult where
  scanned : Bool
  clean : Option Bool
  info : Option String
deriving DecidableEq

/-- `getReport`: cache-only read (the `console` parameter, pure logging, is
dropped). -/
def getReport (domain mediaId : String) (eventContentFile : Option EventContentFile)
    (opts : Opts) : M GetReportResult := fun _env cache =>
  let dm := effRef domain mediaId eventContentFile
  let httpUrl := generateHttpUrl (jsStr opts.baseUrl) dm.1 dm.2
  let resultSecret := generateResultHash httpUrl eventContentFile
  match alookup cache resultSecret with
  | none => (Except.ok { scanned := false, clean := none, info := none }, cache, [])
  | some en =>
    (Except.ok { scanned := true, clean := some en.clean, info := some en.info },
      cache, [])

/-! ## Coalescer key -/

/-- `getInputHash`: the key-derivation function handed to
`deduplicatePromises` (first parameter, the console, dropped). -/
def getInputHash (domain mediaId : String) (eventContentFile : Option EventContentFile)
    (opts : Opts) : Key :=
  let dm := effRef domain mediaId eventContentFile
  let httpUrl := generateHttpUrl (jsStr opts.baseUrl) dm.1 dm.2
  generateResultHash httpUrl eventContentFile

/-! ## generateResult and _generateReport -/

/-- `generateResult`: cache short-circuit, optional decryption, scanner
invocation, cache write. -/
def generateResult (httpUrl : String) (eventContentFile : Option EventContentFile)
    (filePath tempDir script : String) : M ScanRes := fun env cache =>
  let resultSecret := generateResultHash httpUrl eventContentFile
  match alookup cache resultSecret with
  | some r => (Except.ok r, cache, [])
  | none =>
    match eventContentFile with
    | some f =>
      match f.key with
      | some _ =>
        let decryptedFilePath := pathJoin tempDir "unsafeDownloadedDecryptedFile"
        if env.decrypt filePath decryptedFilePath f then
          let cmd := script ++ " " ++ decryptedFilePath
          let er := env.executeCommand cmd
          let result : ScanRes :=
            { clean := er.clean, info := er.info, exitCode := er.exitCode,
              filePath := none, headers := none }
          (Except.ok result, aset cache resultSecret result,
            [Effect.decrypt filePath decryptedFilePath, Effect.scan cmd])
        else
          (Except.error (JsError.clientError 400 "Failed to decrypt file"), cache,
            [Effect.decrypt filePath decryptedFilePath])
      | none =>
        let cmd := script ++ " " ++ filePath
        let er := env.executeCommand cmd
        let result : ScanRes :=
          { clean := er.clean, info := er.info, exitCode := er.exitCode,
            filePath := none, headers := none }
        (Except.ok result, aset cache resultSecret result, [Effect.scan cmd])
    | none =>
      let cmd := script ++ " " ++ filePath
      let er := env.executeCommand cmd
      let result : ScanRes :=
        { clean := er.clean, info := er.info, exitCode := er.exitCode,
          filePath := none, headers := none }
      (Except.ok result, aset cache resultSecret result, [Effect.scan cmd])

/-- `_generateReport`: config check, URL derivation, fetch with its error
mapping (`statusCode` present → `ClientError(502, ...)`, otherwise the
transport error is rethrown), then `generateResult`, then the
`result.filePath = ...` / `result.headers = ...` assignments — the result
object is the cached entry, so those assignments also update the cache's
entry (modelled by the final `aset`). -/
def _generateReport (domain mediaId : String) (eventContentFile : Option EventContentFile)
    (opts : Opts) : M ScanRes := fun env cache =>
  match opts.baseUrl, opts.tempDirectory, opts.script with
  | some baseUrl, some tempDirectory, some script =>
    let tempDir := tempDirectory
    let dm := effRef domain mediaId eventContentFile
    let httpUrl := generateHttpUrl baseUrl dm.1 dm.2
    let filePath := pathJoin tempDir "downloadedFile"
    match env.fetch httpUrl with
    | Except.error err =>
      if jsTruthy err.statusCode then
        (Except.error (JsError.clientError 502 "Failed to get requested URL"), cache,
          [Effect.fetch httpUrl filePath])
      else
        (Except.error (JsError.fetchError err), cache, [Effect.fetch httpUrl filePath])
    | Except.ok downloadHeaders =>
      match generateResult httpUrl eventContentFile filePath tempDir script env cache with
      | (Except.ok result, cache', t) =>
        let result' :=
          { result with filePath := some filePath, headers := some downloadHeaders }
        let resultSecret := generateResultHash httpUrl eventContentFile
        (Except.ok result', aset cache' resultSecret result',
          Effect.fetch httpUrl filePath :: t)
      | (Except.error e, cache', t) =>
        (Except.error e, cache', Effect.fetch httpUrl filePath :: t)
  | _, _, _ =>
    (Except.error (JsError.jsError "Expected baseUrl, tempDirectory and script in opts"),
      cache, [])

/-- `generateReport = deduplicatePromises(getInputHash, _generateReport)`.
For a single sequential invocation the coalescer's registry is empty on
entry and the entry registered for the call's key is deleted when the
underlying execution settles, so the wrapper returns exactly the
underlying execution's outcome; the registry dynamics under concurrency
are modelled by `coStep`/`coRun` below. -/
def generateReport (domain mediaId : String) (eventContentFile : Option EventContentFile)
    (opts : Opts) : M ScanRes :=
  _generateReport domain mediaId eventContentFile opts

/-! ## withTempDir and scannedDownload -/

/-- `withTempDir`: `mkdtemp` a fresh workspace from
`${tempDirectory}${path.sep}av-`, run the wrapped function with
`tempDirectory` overridden, then in a `finally` await the `rimraf`
removal.  Per JS semantics an abrupt completion of the `finally` block
(the rimraf promise rejecting) replaces the `try` block's outcome. -/
def withTempDir {α : Type} (asyncFn : Opts → M α) (opts : Opts) : M α :=
  fun env cache =>
  let pat := jsStr opts.tempDirectory ++ "/av-"
  let tempDir := env.mkdtemp pat
  let opts' := { opts with tempDirectory := some tempDir }
  let inner := asyncFn opts' env cache
  let outcome := if env.rimraf tempDir then inner.1
    else Except.error (JsError.rimrafError tempDir)
  (outcome, inner.2.1, Effect.mkdtemp pat tempDir :: inner.2.2 ++ [Effect.rimraf tempDir])

/-- The response-header whitelist copied by `scannedDownload`. -/
def headerWhitelist : List String :=
  ["content-type", "content-disposition", "content-security-policy"]

/-- The anonymous async function inside `scannedDownload`, before the
`withTempDir` wrapping: run the coalesced pipeline, throw
`ClientError(403, info)` when unclean, otherwise send the file with the
whitelisted headers. -/
def scannedDownloadInner (domain mediaId : String)
    (eventContentFile : Option EventContentFile) (opts : Opts) : M Unit :=
  fun env cache =>
  match generateReport domain mediaId eventContentFile opts env cache with
  | (Except.error e, cache', t) => (Except.error e, cache', t)
  | (Except.ok r, cache', t) =>
    if r.clean then
      let hs := match r.headers with
        | some h => h
        | none => []
      let responseHeaders := headerWhitelist.map fun hk => (hk, alookup hs hk)
      (Except.ok (), cache', t ++ [Effect.sendFile r.filePath responseHeaders])
    else
      (Except.error (JsError.clientError 403 r.info), cache', t)

/-- `scannedDownload = withTempDir(async function (req, res, ...) ...)`. -/
def scannedDownload (domain mediaId : String)
    (eventContentFile : Option EventContentFile) (opts : Opts) : M Unit :=
  withTempDir (scannedDownloadInner domain mediaId eventContentFile) opts

/-! ## The request coalescer (`deduplicatePromises`)

The registry dynamics of `deduplicatePromises(getKey, asyncFn)`: the
`ongoing` object maps a key to the in-flight execution's handle.  A call
whose key is registered awaits the registered execution; an unregistered
key starts a fresh execution (identified here by a serial number) and
registers it; when an execution settles, its `.finally` deletes the
registry entry for its key.  `started` records every execution ever
started (with the key it was started for) and `settled` the executions
that have settled. -/

structure CoState where
  ongoing : List (Key × Nat)
  nextId : Nat
  started : List (Key × Nat)
  settled : List Nat

/-- Scheduler events: a caller invokes the coalesced function with
arguments deriving key `k`, or the in-flight execution for key `k`
settles (fulfils or rejects). -/
inductive CoEvent where
  | call (k : Key)
  | settle (k : Key)

/-- `if(!ongoing[k]) { ongoing[k] = asyncFn(...).finally(...) }; return
await ongoing[k]`: returns the handle the caller awaits. -/
def coCall (s : CoState) (k : Key) : CoState × Nat :=
  match alookup s.ongoing k with
  | some e => (s, e)
  | none =>
    ({ ongoing := (k, s.nextId) :: s.ongoing,
       nextId := s.nextId + 1,
       started := (k, s.nextId) :: s.started,
       settled := s.settled }, s.nextId)

/-- The `.finally((res) => {delete ongoing[k]; ...})` of the execution
registered for `k`. -/
def coSettle (s : CoState) (k : Key) : CoState :=
  match alookup s.ongoing k with
  | some e => { s with ongoing := aremove s.ongoing k, settled := e :: s.settled }
  | none => s

def coStep (s : CoState) : CoEvent → CoState
  | CoEvent.call k => (coCall s k).1
  | CoEvent.settle k => coSettle s k

def coRun (s : CoState) : List CoEvent → CoState
  | [] => s
  | e :: es => coRun (coStep s e) es

/-- The registry is empty when the module is loaded. -/
def coInit : CoState :=
  { ongoing := [], nextId := 0, started := [], settled := [] }

/-- The coalescer's registry invariant: registered executions are started
and unsettled; every started, unsettled execution is registered under its
key; execution ids are below `nextId`; distinct keys never share an
execution. -/
def CoInv (s : CoState) : Prop :=
  (∀ k i, alookup s.ongoing k = some i → ((k, i) ∈ s.started ∧ i ∉ s.settled)) ∧
  (∀ k i, (k, i) ∈ s.started → i ∉ s.settled → alookup s.ongoing k = some i) ∧
  (∀ k i, (k, i) ∈ s.started → i < s.nextId) ∧
  (∀ i, i ∈ s.settled → i < s.nextId) ∧
  (∀ k1 k2 i, (k1, i) ∈ s.started → (k2, i) ∈ s.started → k1 = k2)

/-! ## Concrete fixtures -/

/-- A fully-populated configuration. -/
def optsEx : Opts :=
  { baseUrl := some "https://matrix.example", tempDirectory := some "/tmp",
    script := some "scan.sh" }

/-- An environment where every external collaborator succeeds and the
scanner reports clean. -/
def envEx : Env :=
  { fetch := fun _ => Except.ok [("content-type", "image/png")],
    decrypt := fun _ _ _ => true,
    executeCommand := fun _ => { clean := true, info := "ok", exitCode := 0 },
    mkdtemp := fun p => p ++ "X1",
    rimraf := fun _ => true }

/-- Like `envEx` but the fetch fails with an upstream 404. -/
def envFetch404 : Env :=
  { envEx with fetch := fun _ => Except.error { statusCode := some 404, message := "Not Found" } }

/-- Like `envEx` but the decryption routine throws. -/
def envDecFail : Env := { envEx with decrypt := fun _ _ _ => false }

/-- Like `envEx` but the workspace removal fails. -/
def envRmFail : Env := { envEx with rimraf := fun _ => false }

/-- Like `envEx` but the fetch reports plain-text headers. -/
def envHdrA : Env := { envEx with fetch := fun _ => Except.ok [("content-type", "text/plain")] }

/-- Like `envEx` but the fetch reports HTML headers. -/
def envHdrB : Env := { envEx with fetch := fun _ => Except.ok [("content-type", "text/html")] }

/-- The key for the plain example request under `optsEx`. -/
def exKey : Key := getInputHash "example.org" "abc123" none optsEx

/-- The cache entry produced by running the plain example request in
`envEx`. -/
def exEntry : ScanRes :=
  { clean := true, info := "ok", exitCode := 0,
    filePath := some "/tmp/downloadedFile",
    headers := some [("content-type", "image/png")] }

/-- An encrypted-file descriptor with decryption material. -/
def fEnc : EventContentFile :=
  { url := "mxc://example.org/abc123", key := some { k := "badkey" } }

/-- A descriptor carrying a URL but no `key` field. -/
def fPlain : EventContentFile := { url := "mxc://example.org/abc123", key := none }

/-! ### Injectivity of the serialisation -/

theorem escapeJson_quote_inj : ∀ (s1 s2 r1 r2 : List Char),
    escapeJson s1 ++ '"' :: r1 = escapeJson s2 ++ '"' :: r2 →
    s1 = s2 ∧ r1 = r2 := by
  intro s1
  induction s1 with
  | nil =>
    intro s2 r1 r2 h
    cases s2 with
    | nil =>
      simp only [escapeJson, List.nil_append, List.cons.injEq] at h
      exact ⟨rfl, h.2⟩
    | cons c cs =>
      exfalso
      by_cases hc : c = '"' ∨ c = '\\'
      · simp only [escapeJson, escChar, if_pos hc, List.nil_append,
          List.cons_append, List.cons.injEq] at h
        exact absurd h.1 (by decide)
      · simp only [escapeJson, escChar, if_neg hc, List.nil_append,
          List.cons_append, List.cons.injEq] at h
        exact hc (Or.inl h.1.symm)
  | cons c cs ih =>
    intro s2 r1 r2 h
    cases s2 with
    | nil =>
      exfalso
      by_cases hc : c = '"' ∨ c = '\\'
      · simp only [escapeJson, escChar, if_pos hc, List.nil_append,
          List.cons_append, List.cons.injEq] at h
        exact absurd h.1 (by decide)
      · simp only [escapeJson, escChar, if_neg hc, List.nil_append,
          List.cons_append, List.cons.injEq] at h
        exact hc (Or.inl h.1)
    | cons c' cs' =>
      by_cases hc : c = '"' ∨ c = '\\'
      · by_cases hc' : c' = '"' ∨ c' = '\\'
        · simp only [escapeJson, escChar, if_pos hc, if_pos hc',
            List.cons_append, List.nil_append, List.cons.injEq] at h
          obtain ⟨-, hcc, hrest⟩ := h
          obtain ⟨h1, h2⟩ := ih cs' r1 r2 hrest
          exact ⟨by rw [hcc, h1], h2⟩
        · exfalso
          simp only [escapeJson, escChar, if_pos hc, if_neg hc',
            List.cons_append, List.nil_append, List.cons.injEq] at h
          exact hc' (Or.inr h.1.symm)
      · by_cases hc' : c' = '"' ∨ c' = '\\'
        · exfalso
          simp only [escapeJson, escChar, if_neg hc, if_pos hc',
            List.cons_append, List.nil_append, List.cons.injEq] at h
          exact hc (Or.inr h.1)
        · simp only [escapeJson, escChar, if_neg hc, if_neg hc',
            List.cons_append, List.nil_append, List.cons.injEq] at h
          obtain ⟨hcc, hrest⟩ := h
          obtain ⟨h1, h2⟩ := ih cs' r1 r2 hrest
          exact ⟨by rw [hcc, h1], h2⟩

theorem string_of_data_eq {a b : String} (h : a.data = b.data) : a = b := by
  cases a; cases b; exact congrArg String.mk h

/-- A JSON string literal is self-delimiting: equal concatenations starting
with quoted strings force the strings and the rests to agree. -/
theorem quoteJson_append_inj {s1 s2 : String} {r1 r2 : List Char}
    (h : quoteJson s1 ++ r1 = quoteJson s2 ++ r2) : s1 = s2 ∧ r1 = r2 := by
  simp only [quoteJson, List.cons_append, List.append_assoc, List.cons.injEq,
    List.singleton_append] at h
  obtain ⟨h1, h2⟩ := escapeJson_quote_inj s1.data s2.data r1 r2 h.2
  exact ⟨string_of_data_eq h1, h2⟩

theorem stringifyJwk_append_inj {j1 j2 : Jwk} {r1 r2 : List Char}
    (h : stringifyJwk j1 ++ r1 = stringifyJwk j2 ++ r2) : j1 = j2 ∧ r1 = r2 := by
  simp only [stringifyJwk, List.cons_append, List.append_assoc, List.cons.injEq,
    List.nil_append, true_and] at h
  obtain ⟨h1, h2⟩ := quoteJson_append_inj h
  cases j1; cases j2
  simp only [List.cons.injEq, true_and] at h2
  exact ⟨by simpa using h1, h2⟩

theorem stringifyFile_append_inj {f1 f2 : EventContentFile} {r1 r2 : List Char}
    (h : stringifyFile f1 ++ r1 = stringifyFile f2 ++ r2) : f1 = f2 ∧ r1 = r2 := by
  simp only [stringifyFile, List.cons_append, List.append_assoc, List.cons.injEq,
    List.nil_append, true_and] at h
  obtain ⟨hurl, h2⟩ := quoteJson_append_inj h
  cases hk1 : f1.key with
  | none =>
    cases hk2 : f2.key with
    | none =>
      rw [hk1, hk2] at h2
      simp only [List.nil_append, List.cons.injEq, true_and] at h2
      cases f1; cases f2
      simp_all
    | some j2 =>
      exfalso
      rw [hk1, hk2] at h2
      simp only [List.nil_append, List.cons_append, List.cons.injEq] at h2
      exact absurd h2.1 (by decide)
  | some j1 =>
    cases hk2 : f2.key with
    | none =>
      exfalso
      rw [hk1, hk2] at h2
      simp only [List.nil_append, List.cons_append, List.cons.injEq] at h2
      exact absurd h2.1 (by decide)
    | some j2 =>
      rw [hk1, hk2] at h2
      simp only [List.cons_append, List.append_assoc, List.cons.injEq,
        true_and] at h2
      obtain ⟨hj, hr⟩ := stringifyJwk_append_inj h2
      simp only [List.cons.injEq, true_and] at hr
      cases f1; cases f2
      simp_all

/-- The serialised hash input is injective in the descriptor for a fixed
URL: distinct descriptor values, or present-vs-absent, give distinct
serialisations. -/
theorem stringifyInput_inj_right {u : String} {e1 e2 : Option EventContentFile}
    (h : stringifyInput u e1 = stringifyInput u e2) : e1 = e2 := by
  simp only [stringifyInput, List.cons_append, List.append_assoc,
    List.cons.injEq, true_and] at h
  obtain ⟨-, h2⟩ := quoteJson_append_inj h
  cases e1 with
  | none =>
    cases e2 with
    | none => rfl
    | some f2 =>
      exfalso
      simp only [List.nil_append, List.cons_append, List.cons.injEq] at h2
      exact absurd h2.1 (by decide)
  | some f1 =>
    cases e2 with
    | none =>
      exfalso
      simp only [List.nil_append, List.cons_append, List.cons.injEq] at h2
      exact absurd h2.1 (by decide)
    | some f2 =>
      simp only [List.cons_append, List.append_assoc, List.cons.injEq,
        true_and] at h2
      obtain ⟨hf, -⟩ := stringifyFile_append_inj h2
      rw [hf]

/-- Distinct descriptors (or present-vs-absent) for the same URL yield
distinct cache keys. -/
theorem generateResultHash_ne {u : String} {e1 e2 : Option EventContentFile}
    (h : e1 ≠ e2) : generateResultHash u e1 ≠ generateResultHash u e2 :=
  fun hc => h (stringifyInput_inj_right hc)

theorem alookup_cons {κ β : Type} [DecidableEq κ] (k0 : κ) (v : β)
    (l : List (κ × β)) (k : κ) :
    alookup ((k0, v) :: l) k = if k0 = k then some v else alookup l k := rfl

theorem alookup_aremove_self {κ β : Type} [DecidableEq κ]
    (l : List (κ × β)) (k : κ) : alookup (aremove l k) k = none := by
  induction l with
  | nil => rfl
  | cons p rest ih =>
    obtain ⟨k', v'⟩ := p
    by_cases hk : k' = k
    · simpa [aremove, hk] using ih
    · simpa [aremove, alookup, hk] using ih

theorem alookup_aremove_ne {κ β : Type} [DecidableEq κ]
    (l : List (κ × β)) (k k' : κ) (h : k' ≠ k) :
    alookup (aremove l k) k' = alookup l k' := by
  induction l with
  | nil => rfl
  | cons p rest ih =>
    obtain ⟨k0, v0⟩ := p
    by_cases hk : k0 = k
    · subst hk
      simp [aremove, alookup, Ne.symm h, ih]
    · by_cases hk' : k0 = k'
      · simp [aremove, alookup, hk, hk', h]
      · simp [aremove, alookup, hk, hk', ih]

/-- `coCall` on an unregistered key, as an equation. -/
theorem coCall_none {s : CoState} {k : Key} (hl : alookup s.ongoing k = none) :
    coCall s k =
      ({ ongoing := (k, s.nextId) :: s.ongoing,
         nextId := s.nextId + 1,
         started := (k, s.nextId) :: s.started,
         settled := s.settled }, s.nextId) := by
  unfold coCall; rw [hl]

/-- `coCall` on a registered key, as an equation. -/
theorem coCall_some {s : CoState} {k : Key} {e : Nat}
    (hl : alookup s.ongoing k = some e) : coCall s k = (s, e) := by
  unfold coCall; rw [hl]

theorem coSettle_some {s : CoState} {k : Key} {e : Nat}
    (hl : alookup s.ongoing k = some e) :
    coSettle s k = { s with ongoing := aremove s.ongoing k, settled := e :: s.settled } := by
  unfold coSettle; rw [hl]

theorem coSettle_none {s : CoState} {k : Key}
    (hl : alookup s.ongoing k = none) : coSettle s k = s := by
  unfold coSettle; rw [hl]

theorem coInv_init : CoInv coInit := by
  refine ⟨?_, ?_, ?_, ?_, ?_⟩ <;> intro k <;> simp [coInit, alookup] at *

theorem coInv_call (s : CoState) (k : Key) (h : CoInv s) :
    CoInv (coCall s k).1 := by
  obtain ⟨h1, h2, h3, h4, h5⟩ := h
  cases hl : alookup s.ongoing k with
  | some e => rw [coCall_some hl]; exact ⟨h1, h2, h3, h4, h5⟩
  | none =>
    rw [coCall_none hl]
    refine ⟨?_, ?_, ?_, ?_, ?_⟩
    · intro k' i hli
      rw [alookup_cons] at hli
      by_cases hk : k = k'
      · rw [if_pos hk, Option.some.injEq] at hli
        subst hli; subst hk
        exact ⟨List.mem_cons_self _ _,
          fun hs => absurd (h4 _ hs) (Nat.lt_irrefl _)⟩
      · rw [if_neg hk] at hli
        obtain ⟨hst, hns⟩ := h1 k' i hli
        exact ⟨List.mem_cons_of_mem _ hst, hns⟩
    · intro k' i hst hns
      simp only [List.mem_cons, Prod.mk.injEq] at hst
      rw [alookup_cons]
      rcases hst with ⟨rfl, rfl⟩ | hst
      · rw [if_pos rfl]
      · have hreg := h2 k' i hst hns
        by_cases hk : k = k'
        · subst hk; rw [hreg] at hl; exact absurd hl (by simp)
        · rw [if_neg hk]; exact hreg
    · intro k' i hst
      simp only [List.mem_cons, Prod.mk.injEq] at hst
      rcases hst with ⟨rfl, rfl⟩ | hst
      · exact Nat.lt_succ_self _
      · exact Nat.lt_succ_of_lt (h3 k' i hst)
    · intro i hs
      exact Nat.lt_succ_of_lt (h4 i hs)
    · intro k1 k2 i hst1 hst2
      simp only [List.mem_cons, Prod.mk.injEq] at hst1 hst2
      rcases hst1 with ⟨rfl, rfl⟩ | hst1
      · rcases hst2 with ⟨rfl, -⟩ | hst2
        · rfl
        · exact absurd (h3 _ _ hst2) (Nat.lt_irrefl _)
      · rcases hst2 with ⟨rfl, rfl⟩ | hst2
        · exact absurd (h3 _ _ hst1) (Nat.lt_irrefl _)
        · exact h5 k1 k2 i hst1 hst2

theorem coInv_settle (s : CoState) (k : Key) (h : CoInv s) :
    CoInv (coSettle s k) := by
  obtain ⟨h1, h2, h3, h4, h5⟩ := h
  cases hl : alookup s.ongoing k with
  | none => rw [coSettle_none hl]; exact ⟨h1, h2, h3, h4, h5⟩
  | some e =>
    rw [coSettle_some hl]
    obtain ⟨hest, hens⟩ := h1 k e hl
    refine ⟨?_, ?_, ?_, ?_, ?_⟩
    · intro k' i hli
      by_cases hk : k' = k
      · subst hk
        rw [alookup_aremove_self] at hli
        exact Option.noConfusion hli
      · rw [alookup_aremove_ne _ _ _ hk] at hli
        obtain ⟨hst, hns⟩ := h1 k' i hli
        refine ⟨hst, fun hmem => ?_⟩
        simp only [List.mem_cons] at hmem
        rcases hmem with rfl | hmem
        · exact hk (h5 k' k i hst hest)
        · exact hns hmem
    · intro k' i hst hns
      simp only [List.mem_cons, not_or] at hns
      obtain ⟨hne, hns⟩ := hns
      have hreg := h2 k' i hst hns
      by_cases hk : k' = k
      · subst hk
        rw [hreg] at hl
        cases hl
        exact absurd rfl hne
      · rw [alookup_aremove_ne _ _ _ hk]
        exact hreg
    · exact h3
    · intro i hs
      simp only [List.mem_cons] at hs
      rcases hs with rfl | hs
      · exact h3 _ _ hest
      · exact h4 i hs
    · exact h5

theorem coInv_step (s : CoState) (ev : CoEvent) (h : CoInv s) :
    CoInv (coStep s ev) := by
  cases ev with
  | call k => exact coInv_call s k h
  | settle k => exact coInv_settle s k h

theorem coInv_run (es : List CoEvent) : ∀ (s : CoState), CoInv s → CoInv (coRun s es) := by
  induction es with
  | nil => intro s h; exact h
  | cons e es ih => intro s h; exact ih _ (coInv_step s e h)

/-! ## Cache lemmas -/

theorem alookup_aset_self {κ β : Type} [DecidableEq κ]
    (l : List (κ × β)) (k : κ) (v : β) : alookup (aset l k v) k = some v := by
  induction l with
  | nil => simp [aset, alookup]
  | cons p rest ih =>
    obtain ⟨k0, v0⟩ := p
    by_cases hk : k0 = k
    · simp [aset, alookup, hk]
    · simp [aset, alookup, hk, ih]

theorem alookup_aset_ne {κ β : Type} [DecidableEq κ]
    (l : List (κ × β)) (k k' : κ) (v : β) (h : k' ≠ k) :
    alookup (aset l k v) k' = alookup l k' := by
  induction l with
  | nil => simp [aset, alookup, h, Ne.symm h]
  | cons p rest ih =>
    obtain ⟨k0, v0⟩ := p
    by_cases hk : k0 = k
    · subst hk
      simp [aset, alookup, Ne.symm h]
    · by_cases hk' : k0 = k'
      · simp [aset, alookup, hk, hk', h]
      · simp [aset, alookup, hk, hk', ih]

/-- With `baseUrl` configured, the coalescer key is the digest of the
derived download URL and the descriptor. -/
theorem getInputHash_eq_of_baseUrl {o : Opts} {b : String}
    (hb : o.baseUrl = some b) (d m : String) (e : Option EventContentFile) :
    getInputHash d m e o =
      generateResultHash (generateHttpUrl b (effRef d m e).1 (effRef d m e).2) e := by
  simp [getInputHash, hb, jsStr]

/-- Evaluation of `getReport`: a cache lookup at the coalescer key, no
effects, no cache change. -/
theorem getReport_spec (d m : String) (e : Option EventContentFile) (o : Opts)
    (env : Env) (c : Cache) :
    getReport d m e o env c =
      (Except.ok (match alookup c (getInputHash d m e o) with
        | none => { scanned := false, clean := none, info := none }
        | some en =>
          { scanned := true, clean := some en.clean, info := some en.info }),
       c, []) := by
  simp only [getReport, getInputHash]
  cases alookup c (generateResultHash
      (generateHttpUrl (jsStr o.baseUrl) (effRef d m e).1 (effRef d m e).2) e) <;> rfl

/-- A successful `generateResult` either hit the cache (cache unchanged)
or wrote its fresh result at the derived key. -/
theorem generateResult_ok_cases {u : String} {e : Option EventContentFile}
    {fp td sc : String} {env : Env} {c c' : Cache} {r : ScanRes} {t : List Effect}
    (h : generateResult u e fp td sc env c = (Except.ok r, c', t)) :
    (alookup c (generateResultHash u e) = some r ∧ c' = c) ∨
    (alookup c (generateResultHash u e) = none ∧
      c' = aset c (generateResultHash u e) r) := by
  simp only [generateResult] at h
  split at h
  · rename_i r0 hl
    simp only [Prod.mk.injEq, Except.ok.injEq] at h
    obtain ⟨rfl, rfl, -⟩ := h
    exact Or.inl ⟨hl, rfl⟩
  · rename_i hl
    right
    split at h
    · rename_i f
      split at h
      · rename_i j hk
        split at h
        · simp only [Prod.mk.injEq, Except.ok.injEq] at h
          obtain ⟨rfl, rfl, -⟩ := h
          exact ⟨hl, rfl⟩
        · simp only [Prod.mk.injEq] at h
          exact Except.noConfusion h.1
      · simp only [Prod.mk.injEq, Except.ok.injEq] at h
        obtain ⟨rfl, rfl, -⟩ := h
        exact ⟨hl, rfl⟩
    · simp only [Prod.mk.injEq, Except.ok.injEq] at h
      obtain ⟨rfl, rfl, -⟩ := h
      exact ⟨hl, rfl⟩

/-- A failed `generateResult` leaves the cache untouched. -/
theorem generateResult_err_cache {u : String} {e : Option EventContentFile}
    {fp td sc : String} {env : Env} {c c' : Cache} {er : JsError} {t : List Effect}
    (h : generateResult u e fp td sc env c = (Except.error er, c', t)) : c' = c := by
  simp only [generateResult] at h
  split at h
  · simp only [Prod.mk.injEq] at h
    exact Except.noConfusion h.1
  · split at h
    · split at h
      · split at h
        · simp only [Prod.mk.injEq] at h
          exact Except.noConfusion h.1
        · simp only [Prod.mk.injEq] at h
          exact h.2.1.symm
      · simp only [Prod.mk.injEq] at h
        exact Except.noConfusion h.1
    · simp only [Prod.mk.injEq] at h
      exact Except.noConfusion h.1

/-- After a successful `generateReport`, the cache holds the returned
result object at the coalescer key. -/
theorem _generateReport_ok_cache {d m : String} {e : Option EventContentFile}
    {o : Opts} {env : Env} {c c' : Cache} {r : ScanRes} {t : List Effect}
    (h : _generateReport d m e o env c = (Except.ok r, c', t)) :
    alookup c' (getInputHash d m e o) = some r := by
  simp only [_generateReport] at h
  split at h
  · rename_i b td sc hb htd hsc
    split at h
    · split at h
      · simp only [Prod.mk.injEq] at h
        exact Except.noConfusion h.1
      · simp only [Prod.mk.injEq] at h
        exact Except.noConfusion h.1
    · rename_i hdrs hf
      split at h
      · rename_i result c2 t2 hgr
        simp only [Prod.mk.injEq, Except.ok.injEq] at h
        obtain ⟨rfl, rfl, -⟩ := h
        rw [getInputHash_eq_of_baseUrl hb]
        exact alookup_aset_self _ _ _
      · simp only [Prod.mk.injEq] at h
        exact Except.noConfusion h.1
  · simp only [Prod.mk.injEq] at h
    exact Except.noConfusion h.1

/-- A failed `generateReport` leaves the cache untouched. -/
theorem _generateReport_err_cache {d m : String} {e : Option EventContentFile}
    {o : Opts} {env : Env} {c c' : Cache} {er : JsError} {t : List Effect}
    (h : _generateReport d m e o env c = (Except.error er, c', t)) : c' = c := by
  simp only [_generateReport] at h
  split at h
  · rename_i b td sc hb htd hsc
    split at h
    · split at h
      · simp only [Prod.mk.injEq] at h
        exact h.2.1.symm
      · simp only [Prod.mk.injEq] at h
        exact h.2.1.symm
    · split at h
      · simp only [Prod.mk.injEq] at h
        exact Except.noConfusion h.1
      · rename_i e2 c2 t2 hgr
        simp only [Prod.mk.injEq] at h
        rw [← h.2.1]
        exact generateResult_err_cache hgr
  · simp only [Prod.mk.injEq] at h
    exact h.2.1.symm

/-- Any `_generateReport` run preserves every pre-existing cache entry's
verdict fields (`clean`, `info`, `exitCode`); only `filePath` and
`headers` of the entry at the run's own key can change. -/
theorem _generateReport_preserves {d m : String} {e : Option EventContentFile}
    {o : Opts} {env : Env} {c c' : Cache} {res : Except JsError ScanRes}
    {t : List Effect} {k0 : Key} {en : ScanRes}
    (hen : alookup c k0 = some en)
    (h : _generateReport d m e o env c = (res, c', t)) :
    ∃ en', alookup c' k0 = some en' ∧ en'.clean = en.clean ∧
      en'.info = en.info ∧ en'.exitCode = en.exitCode := by
  cases res with
  | error er =>
    rw [_generateReport_err_cache h]
    exact ⟨en, hen, rfl, rfl, rfl⟩
  | ok r =>
    simp only [_generateReport] at h
    split at h
    · rename_i b td sc hb htd hsc
      split at h
      · split at h
        · simp only [Prod.mk.injEq] at h
          exact Except.noConfusion h.1
        · simp only [Prod.mk.injEq] at h
          exact Except.noConfusion h.1
      · rename_i hdrs hf
        split at h
        · rename_i result c2 t2 hgr
          simp only [Prod.mk.injEq, Except.ok.injEq] at h
          obtain ⟨rfl, rfl, -⟩ := h
          rcases generateResult_ok_cases hgr with ⟨hhit, rfl⟩ | ⟨hmiss, rfl⟩
          · by_cases hk0 : k0 = generateResultHash
                (generateHttpUrl b (effRef d m e).1 (effRef d m e).2) e
            · subst hk0
              rw [hen] at hhit
              obtain rfl : en = result := by
                simpa using hhit
              refine ⟨_, alookup_aset_self _ _ _, rfl, rfl, rfl⟩
            · rw [alookup_aset_ne _ _ _ _ hk0]
              exact ⟨en, hen, rfl, rfl, rfl⟩
          · have hk0 : k0 ≠ generateResultHash
                (generateHttpUrl b (effRef d m e).1 (effRef d m e).2) e := by
              intro hk
              rw [hk, hmiss] at hen
              exact Option.noConfusion hen
            rw [alookup_aset_ne _ _ _ _ hk0, alookup_aset_ne _ _ _ _ hk0]
            exact ⟨en, hen, rfl, rfl, rfl⟩
        · simp only [Prod.mk.injEq] at h
          exact Except.noConfusion h.1
    · simp only [Prod.mk.injEq] at h
      exact Except.noConfusion h.1

/-! ## Claims -/

/-- C1: for every key derived by `getInputHash`, at most one underlying
execution is in flight at a time; a call whose key has an execution in
flight joins that same execution (same handle, nothing new started); on
settlement the key is deregistered; and a call on a deregistered key
starts a fresh execution (one never started before). -/
theorem C1_coalescer_single_flight (es : List CoEvent) :
    (∀ k i1 i2, (k, i1) ∈ (coRun coInit es).started → i1 ∉ (coRun coInit es).settled →
      (k, i2) ∈ (coRun coInit es).started → i2 ∉ (coRun coInit es).settled →
      i1 = i2) ∧
    (∀ d m e o i,
      alookup (coRun coInit es).ongoing (getInputHash d m e o) = some i →
      (coCall (coRun coInit es) (getInputHash d m e o)).2 = i ∧
      (coCall (coRun coInit es) (getInputHash d m e o)).1 = coRun coInit es) ∧
    (∀ k, alookup (coSettle (coRun coInit es) k).ongoing k = none) ∧
    (∀ d m e o,
      alookup (coRun coInit es).ongoing (getInputHash d m e o) = none →
      (coCall (coRun coInit es) (getInputHash d m e o)).2 = (coRun coInit es).nextId ∧
      (getInputHash d m e o, (coRun coInit es).nextId) ∉ (coRun coInit es).started) := by
  obtain ⟨h1, h2, h3, h4, h5⟩ := coInv_run es coInit coInv_init
  refine ⟨?_, ?_, ?_, ?_⟩
  · intro k i1 i2 hs1 hn1 hs2 hn2
    have e1 := h2 k i1 hs1 hn1
    have e2 := h2 k i2 hs2 hn2
    exact Option.some.inj (e1.symm.trans e2)
  · intro d m e o i hl
    exact ⟨by rw [coCall_some hl], by rw [coCall_some hl]⟩
  · intro k
    cases hl : alookup (coRun coInit es).ongoing k with
    | some e0 =>
      rw [coSettle_some hl]
      exact alookup_aremove_self _ _
    | none =>
      rw [coSettle_none hl]
      exact hl
  · intro d m e o hl
    refine ⟨by rw [coCall_none hl], fun hmem => ?_⟩
    exact absurd (h3 _ _ hmem) (Nat.lt_irrefl _)

theorem C1_coalescer_single_flight_witness :
    (coCall (coRun coInit [CoEvent.call (getInputHash "example.org" "abc123" none optsEx),
        CoEvent.call (getInputHash "example.org" "abc123" none optsEx)])
      (getInputHash "example.org" "abc123" none optsEx)).2 = 0 :=
  ((C1_coalescer_single_flight _).2.1 "example.org" "abc123" none optsEx 0 (by decide)).1

/-- C2: `generateResultHash` is deterministic, and for a fixed URL any two
distinct descriptor values — including present versus absent — yield
distinct digests. -/
theorem C2_result_key_deterministic_distinguishing :
    (∀ (u : String) (e : Option EventContentFile),
      generateResultHash u e = generateResultHash u e) ∧
    (∀ (u : String) (e1 e2 : Option EventContentFile),
      e1 ≠ e2 → generateResultHash u e1 ≠ generateResultHash u e2) :=
  ⟨fun _ _ => rfl, fun _ _ _ h => generateResultHash_ne h⟩

theorem C2_result_key_witness :
    generateResultHash
        "https://matrix.example/_matrix/media/v1/download/example.org/abc123" none ≠
      generateResultHash
        "https://matrix.example/_matrix/media/v1/download/example.org/abc123"
        (some fPlain) :=
  C2_result_key_deterministic_distinguishing.2 _ _ _ (by decide)

/-- C3: `getReport` is a pure cache lookup: for every input it performs no
effect (no fetch, decryption, or scanner invocation), leaves the cache
unchanged, and returns `{scanned: false}` on a miss and
`{scanned: true, clean, info}` from the entry on a hit. -/
theorem C3_getReport_cache_only (d m : String) (e : Option EventContentFile)
    (o : Opts) (env : Env) (c : Cache) :
    getReport d m e o env c =
      (Except.ok (match alookup c (getInputHash d m e o) with
        | none => { scanned := false, clean := none, info := none }
        | some en =>
          { scanned := true, clean := some en.clean, info := some en.info }),
       c, []) :=
  getReport_spec d m e o env c

/-- C4: after `generateReport` completes successfully, `getReport` with
the same `(domain, mediaId, descriptor, opts)` sees the entry and returns
`{scanned: true, clean, info}` with the produced verdict's values. -/
theorem C4_generate_then_getReport (d m : String) (e : Option EventContentFile)
    (o : Opts) (env env2 : Env) (c c' : Cache) (r : ScanRes) (t : List Effect)
    (h : generateReport d m e o env c = (Except.ok r, c', t)) :
    getReport d m e o env2 c' =
      (Except.ok { scanned := true, clean := some r.clean, info := some r.info },
       c', []) := by
  simp only [generateReport] at h
  have hc := _generateReport_ok_cache h
  rw [getReport_spec, hc]

theorem C4_generate_then_getReport_witness :
    getReport "example.org" "abc123" none optsEx envEx [(exKey, exEntry)] =
      (Except.ok { scanned := true, clean := some true, info := some "ok" },
       [(exKey, exEntry)], []) :=
  C4_generate_then_getReport "example.org" "abc123" none optsEx envEx envEx []
    [(exKey, exEntry)] exEntry
    [Effect.fetch "https://matrix.example/_matrix/media/v1/download/example.org/abc123"
      "/tmp/downloadedFile",
     Effect.scan "scan.sh /tmp/downloadedFile"]
    (by rfl)

/-- C5 counterexample: with everything else succeeding, a failing
workspace removal replaces the wrapped operation's successful outcome —
the inner pipeline returns `ok` but the caller of the wrapped
`scannedDownload` observes the removal error, so the removal failure does
mask the operation's own result. -/
theorem C5_counterexample :
    (scannedDownloadInner "example.org" "abc123" none
        { optsEx with tempDirectory := some "/tmp/av-X1" } envRmFail []).1 =
      Except.ok () ∧
    (scannedDownload "example.org" "abc123" none optsEx envRmFail []).1 =
      Except.error (JsError.rimrafError "/tmp/av-X1") := by
  constructor <;> rfl

/-- C5 amended: the wrapper always invokes removal of the created
workspace, on success and on error of the wrapped operation alike; when
removal succeeds the operation's outcome is returned unchanged, but when
removal fails the removal error replaces the operation's outcome (JS
`finally` semantics). -/
theorem C5_amended_cleanup_every_path {α : Type} (asyncFn : Opts → M α)
    (o : Opts) (env : Env) (c : Cache) :
    (Effect.rimraf (env.mkdtemp (jsStr o.tempDirectory ++ "/av-")) ∈
      (withTempDir asyncFn o env c).2.2) ∧
    ((withTempDir asyncFn o env c).1 =
      if env.rimraf (env.mkdtemp (jsStr o.tempDirectory ++ "/av-"))
      then (asyncFn { o with
          tempDirectory := some (env.mkdtemp (jsStr o.tempDirectory ++ "/av-")) }
          env c).1
      else Except.error
        (JsError.rimrafError (env.mkdtemp (jsStr o.tempDirectory ++ "/av-")))) := by
  constructor
  · simp [withTempDir]
  · rfl

/-- C6: a fetch failure carrying an HTTP status code is mapped to
`ClientError(502, ...)`; one without a status code is rethrown unchanged;
in both cases the cache is untouched and only the fetch was attempted. -/
theorem C6_fetch_failure_mapping (d m : String) (e : Option EventContentFile)
    (o : Opts) (b td sc : String) (env : Env) (c : Cache) (err : FetchErr)
    (hb : o.baseUrl = some b) (htd : o.tempDirectory = some td)
    (hsc : o.script = some sc)
    (hf : env.fetch (generateHttpUrl b (effRef d m e).1 (effRef d m e).2) =
      Except.error err) :
    generateReport d m e o env c =
      (Except.error (if jsTruthy err.statusCode
        then JsError.clientError 502 "Failed to get requested URL"
        else JsError.fetchError err), c,
       [Effect.fetch (generateHttpUrl b (effRef d m e).1 (effRef d m e).2)
          (pathJoin td "downloadedFile")]) := by
  simp only [generateReport, _generateReport, hb, htd, hsc, hf]
  cases hjt : jsTruthy err.statusCode <;> simp [hjt]

theorem C6_fetch_failure_witness :
    generateReport "example.org" "abc123" none optsEx envFetch404 [] =
      (Except.error (JsError.clientError 502 "Failed to get requested URL"), [],
       [Effect.fetch "https://matrix.example/_matrix/media/v1/download/example.org/abc123"
          "/tmp/downloadedFile"]) :=
  C6_fetch_failure_mapping "example.org" "abc123" none optsEx
    "https://matrix.example" "/tmp" "scan.sh" envFetch404 []
    { statusCode := some 404, message := "Not Found" } rfl rfl rfl rfl

/-- C7: with a descriptor carrying decryption material, a throwing
decryption routine makes `generateReport` fail with
`ClientError(400, ...)`, writes nothing to the cache, and a subsequent
`getReport` for the same input still answers `{scanned: false}`. -/
theorem C7_decrypt_failure (d m : String) (f : EventContentFile) (j : Jwk)
    (o : Opts) (b td sc : String) (env : Env) (c : Cache)
    (hs : List (String × String))
    (hb : o.baseUrl = some b) (htd : o.tempDirectory = some td)
    (hsc : o.script = some sc) (hk : f.key = some j)
    (hmiss : alookup c (getInputHash d m (some f) o) = none)
    (hf : env.fetch (generateHttpUrl b
        (effRef d m (some f)).1 (effRef d m (some f)).2) = Except.ok hs)
    (hd : env.decrypt (pathJoin td "downloadedFile")
        (pathJoin td "unsafeDownloadedDecryptedFile") f = false) :
    generateReport d m (some f) o env c =
      (Except.error (JsError.clientError 400 "Failed to decrypt file"), c,
       [Effect.fetch (generateHttpUrl b
           (effRef d m (some f)).1 (effRef d m (some f)).2)
          (pathJoin td "downloadedFile"),
        Effect.decrypt (pathJoin td "downloadedFile")
          (pathJoin td "unsafeDownloadedDecryptedFile")]) ∧
    getReport d m (some f) o env c =
      (Except.ok { scanned := false, clean := none, info := none }, c, []) := by
  have hmiss' : alookup c (generateResultHash (generateHttpUrl b
      (effRef d m (some f)).1 (effRef d m (some f)).2) (some f)) = none := by
    rw [← getInputHash_eq_of_baseUrl hb]
    exact hmiss
  constructor
  · simp only [generateReport, _generateReport, hb, htd, hsc, hf]
    simp [generateResult, hmiss', hk, hd]
  · rw [getReport_spec, hmiss]

theorem C7_decrypt_failure_witness :
    generateReport "example.org" "abc123" (some fEnc) optsEx envDecFail [] =
      (Except.error (JsError.clientError 400 "Failed to decrypt file"), [],
       [Effect.fetch "https://matrix.example/_matrix/media/v1/download/example.org/abc123"
          "/tmp/downloadedFile",
        Effect.decrypt "/tmp/downloadedFile" "/tmp/unsafeDownloadedDecryptedFile"]) ∧
    getReport "example.org" "abc123" (some fEnc) optsEx envDecFail [] =
      (Except.ok { scanned := false, clean := none, info := none }, [], []) := by
  have h := C7_decrypt_failure "example.org" "abc123" fEnc { k := "badkey" } optsEx
    "https://matrix.example" "/tmp" "scan.sh" envDecFail []
    [("content-type", "image/png")] rfl rfl rfl rfl rfl rfl rfl
  simpa [effRef, splitSlice2, generateHttpUrl, pathJoin, splitOnChar] using h

/-- C10: with a descriptor present but carrying no `key` field, the
pipeline performs no decryption and runs the scanner directly on the
fetched file, while the cache key still incorporates the descriptor, so
it differs from the key for the same URL with no descriptor at all. -/
theorem C10_keyless_descriptor (d m : String) (f : EventContentFile)
    (o : Opts) (b td sc : String) (env : Env) (c : Cache)
    (hs : List (String × String))
    (hb : o.baseUrl = some b) (htd : o.tempDirectory = some td)
    (hsc : o.script = some sc) (hk : f.key = none)
    (hmiss : alookup c (getInputHash d m (some f) o) = none)
    (hf : env.fetch (generateHttpUrl b
        (effRef d m (some f)).1 (effRef d m (some f)).2) = Except.ok hs) :
    (generateReport d m (some f) o env c).2.2 =
      [Effect.fetch (generateHttpUrl b
          (effRef d m (some f)).1 (effRef d m (some f)).2)
         (pathJoin td "downloadedFile"),
       Effect.scan (sc ++ " " ++ pathJoin td "downloadedFile")] ∧
    (∀ u : String, generateResultHash u (some f) ≠ generateResultHash u none) := by
  have hmiss' : alookup c (generateResultHash (generateHttpUrl b
      (effRef d m (some f)).1 (effRef d m (some f)).2) (some f)) = none := by
    rw [← getInputHash_eq_of_baseUrl hb]
    exact hmiss
  constructor
  · simp only [generateReport, _generateReport, hb, htd, hsc, hf]
    simp [generateResult, hmiss', hk]
  · intro u
    exact generateResultHash_ne (Option.some_ne_none f)

theorem C10_keyless_descriptor_witness :
    (generateReport "example.org" "abc123" (some fPlain) optsEx envEx []).2.2 =
      [Effect.fetch "https://matrix.example/_matrix/media/v1/download/example.org/abc123"
         "/tmp/downloadedFile",
       Effect.scan "scan.sh /tmp/downloadedFile"] ∧
    (∀ u : String,
      generateResultHash u (some fPlain) ≠ generateResultHash u none) := by
  have h := C10_keyless_descriptor "example.org" "abc123" fPlain optsEx
    "https://matrix.example" "/tmp" "scan.sh" envEx []
    [("content-type", "image/png")] rfl rfl rfl rfl rfl rfl
  simpa [effRef, splitSlice2, generateHttpUrl, pathJoin, splitOnChar] using h

/-- C8 counterexample: cache entries are mutated after creation.  The
returned result object and the cached entry are the same JS object, and
`_generateReport` assigns `filePath`/`headers` on it after `generateResult`
returns — so a second pipeline invocation that hits the cache rewrites the
stored entry's `headers` to the second fetch's headers, changing the
entry's fields with no cache-clear in between. -/
theorem C8_counterexample :
    alookup (generateReport "example.org" "abc123" none optsEx envHdrB
        (generateReport "example.org" "abc123" none optsEx envHdrA []).2.1).2.1
      (getInputHash "example.org" "abc123" none optsEx) ≠
    alookup (generateReport "example.org" "abc123" none optsEx envHdrA []).2.1
      (getInputHash "example.org" "abc123" none optsEx) := by
  decide

/-- C8 amended: the verdict fields (`clean`, `info`, `exitCode`) of every
cache entry are written once and never changed by later pipeline
invocations, and entries are removed only by `clearReportCache`; however,
every successful pipeline invocation for a key — including one that hits
the existing entry — reassigns that entry's `filePath` and `headers` to
the invocation's own download path and fetched headers, because the
returned object and the cached entry are one object. -/
theorem C8_amended_entry_lifecycle :
    (∀ (d m : String) (e : Option EventContentFile) (o : Opts) (env : Env)
      (c c' : Cache) (res : Except JsError ScanRes) (t : List Effect)
      (k0 : Key) (en : ScanRes),
      alookup c k0 = some en →
      generateReport d m e o env c = (res, c', t) →
      ∃ en', alookup c' k0 = some en' ∧ en'.clean = en.clean ∧
        en'.info = en.info ∧ en'.exitCode = en.exitCode) ∧
    (∀ (c : Cache) (k : Key), alookup (clearReportCache c) k = none) ∧
    (∀ (d m : String) (e : Option EventContentFile) (o : Opts)
      (b td sc : String) (env : Env) (c : Cache)
      (hs : List (String × String)) (en : ScanRes),
      o.baseUrl = some b → o.tempDirectory = some td → o.script = some sc →
      alookup c (getInputHash d m e o) = some en →
      env.fetch (generateHttpUrl b (effRef d m e).1 (effRef d m e).2) =
        Except.ok hs →
      generateReport d m e o env c =
        (Except.ok { en with
              filePath := some (pathJoin td "downloadedFile"),
              headers := some hs },
         aset c (getInputHash d m e o)
           { en with
              filePath := some (pathJoin td "downloadedFile"),
              headers := some hs },
         [Effect.fetch (generateHttpUrl b (effRef d m e).1 (effRef d m e).2)
            (pathJoin td "downloadedFile")])) := by
  refine ⟨?_, ?_, ?_⟩
  · intro d m e o env c c' res t k0 en hen h
    simp only [generateReport] at h
    exact _generateReport_preserves hen h
  · intro c k
    rfl
  · intro d m e o b td sc env c hs en hb htd hsc hhit hf
    have hhit' : alookup c (generateResultHash (generateHttpUrl b
        (effRef d m e).1 (effRef d m e).2) e) = some en := by
      rw [← getInputHash_eq_of_baseUrl hb]
      exact hhit
    rw [getInputHash_eq_of_baseUrl hb]
    simp only [generateReport, _generateReport, hb, htd, hsc, hf]
    simp [generateResult, hhit']

theorem C8_amended_entry_lifecycle_witness :
    generateReport "example.org" "abc123" none optsEx envHdrB [(exKey, exEntry)] =
      (Except.ok { exEntry with
            filePath := some (pathJoin "/tmp" "downloadedFile"),
            headers := some [("content-type", "text/html")] },
       aset [(exKey, exEntry)] (getInputHash "example.org" "abc123" none optsEx)
         { exEntry with
            filePath := some (pathJoin "/tmp" "downloadedFile"),
            headers := some [("content-type", "text/html")] },
       [Effect.fetch (generateHttpUrl "https://matrix.example"
           (effRef "example.org" "abc123" none).1
           (effRef "example.org" "abc123" none).2)
          (pathJoin "/tmp" "downloadedFile")]) :=
  C8_amended_entry_lifecycle.2.2 "example.org" "abc123" none optsEx
    "https://matrix.example" "/tmp" "scan.sh" envHdrB [(exKey, exEntry)]
    [("content-type", "text/html")] exEntry rfl rfl rfl (by decide) rfl

/-- C9 counterexample: with `script` absent (and the other fields
present), `scannedDownload` performs I/O before the configuration error
is raised — the `withTempDir` wrapper creates the workspace directory
with `mkdtemp` (and removes it again) around the failing call, so a
directory is created even though the claim says none may be. -/
theorem C9_counterexample :
    scannedDownload "example.org" "abc123" none
        { baseUrl := some "https://matrix.example", tempDirectory := some "/tmp",
          script := none } envEx [] =
      (Except.error (JsError.jsError "Expected baseUrl, tempDirectory and script in opts"),
       [], [Effect.mkdtemp "/tmp/av-" "/tmp/av-X1", Effect.rimraf "/tmp/av-X1"]) ∧
    Effect.mkdtemp "/tmp/av-" "/tmp/av-X1" ∈
      (scannedDownload "example.org" "abc123" none
        { baseUrl := some "https://matrix.example", tempDirectory := some "/tmp",
          script := none } envEx []).2.2 := by
  constructor
  · rfl
  · decide

/-- Helper for C9: with any required field absent, `generateReport` raises
the configuration error with no effects and no cache change. -/
theorem generateReport_config_error (d m : String) (e : Option EventContentFile)
    (o : Opts) (env : Env) (c : Cache)
    (h : o.baseUrl = none ∨ o.tempDirectory = none ∨ o.script = none) :
    generateReport d m e o env c =
      (Except.error (JsError.jsError "Expected baseUrl, tempDirectory and script in opts"),
       c, []) := by
  rcases hb : o.baseUrl with _ | b <;>
    rcases htd : o.tempDirectory with _ | td <;>
    rcases hsc : o.script with _ | sc <;>
    simp_all [generateReport, _generateReport]

/-- C9 amended: with any of `baseUrl`, `tempDirectory` or `script`
absent, a direct `generateReport` call raises the configuration error
before any I/O (no directory, fetch, decryption or scan); a
`scannedDownload` call, however, first creates (and finally removes) its
scoped workspace directory and only then raises the configuration error —
still before any fetch, decryption or scanner invocation (and a missing
`tempDirectory` can never be caught through `scannedDownload`, whose
wrapper overrides that field after attempting `mkdtemp` under
`undefined`). -/
theorem C9_amended_config_error_io (d m : String) (e : Option EventContentFile)
    (o : Opts) (env : Env) (c : Cache) :
    ((o.baseUrl = none ∨ o.tempDirectory = none ∨ o.script = none) →
      generateReport d m e o env c =
        (Except.error (JsError.jsError "Expected baseUrl, tempDirectory and script in opts"),
         c, [])) ∧
    ((o.baseUrl = none ∨ o.script = none) →
      scannedDownload d m e o env c =
        (Except.error (if env.rimraf (env.mkdtemp (jsStr o.tempDirectory ++ "/av-"))
            then JsError.jsError "Expected baseUrl, tempDirectory and script in opts"
            else JsError.rimrafError (env.mkdtemp (jsStr o.tempDirectory ++ "/av-"))),
         c,
         [Effect.mkdtemp (jsStr o.tempDirectory ++ "/av-")
            (env.mkdtemp (jsStr o.tempDirectory ++ "/av-")),
          Effect.rimraf (env.mkdtemp (jsStr o.tempDirectory ++ "/av-"))])) := by
  constructor
  · exact generateReport_config_error d m e o env c
  · intro h
    have hg := generateReport_config_error d m e
      { o with tempDirectory := some (env.mkdtemp (jsStr o.tempDirectory ++ "/av-")) }
      env c
      (by rcases h with h | h
          · exact Or.inl h
          · exact Or.inr (Or.inr h))
    simp only [scannedDownload, withTempDir, scannedDownloadInner, hg]
    cases hr : env.rimraf (env.mkdtemp (jsStr o.tempDirectory ++ "/av-")) <;>
      simp [hr]

theorem C9_amended_config_error_io_witness :
    generateReport "example.org" "abc123" none
        { baseUrl := some "https://matrix.example", tempDirectory := some "/tmp",
          script := none } envEx [] =
      (Except.error (JsError.jsError "Expected baseUrl, tempDirectory and script in opts"),
       [], []) ∧
    scannedDownload "example.org" "abc123" none
        { baseUrl := some "https://matrix.example", tempDirectory := some "/tmp",
          script := none } envEx [] =
      (Except.error (JsError.jsError "Expected baseUrl, tempDirectory and script in opts"),
       [], [Effect.mkdtemp "/tmp/av-" "/tmp/av-X1", Effect.rimraf "/tmp/av-X1"]) := by
  have h := C9_amended_config_error_io "example.org" "abc123" none
    { baseUrl := some "https://matrix.example", tempDirectory := some "/tmp",
      script := none } envEx []
  exact ⟨h.1 (Or.inr (Or.inr rfl)), h.2 (Or.inr rfl)⟩
